import Mathlib

/-!
Shallow embedding of the GameBoy-Emulator-Rust core (src/utils.rs, src/memory.rs,
src/clock.rs, src/cpu.rs, src/joypad.rs, src/graphics.rs, src/gb.rs).

Machine integers are modelled as `Nat` with explicit `% 2^w` at the points where
the Rust code wraps (u8 arithmetic, u16 stack-pointer / program-counter
arithmetic, the u32 timer counter).  The 64 KiB byte array behind the bus is a
function `Nat → Nat`; reads reduce modulo 256 so that an arbitrary function
still denotes an array of `u8` cells.  Fallible Rust code (array indexing that
can go out of bounds, `unimplemented!` panics, `self.rom[0]` on an empty
vector) is modelled with `Option`, `none` standing for a panic.
-/

namespace GBEmu

/-! ## utils.rs -/

/-- `utils::get_flag` — `(flag_byte & flag) > 0`.  (The Rust code asserts that
`flag` is a single bit; every call site passes a constant power of two.) -/
def get_flag (flagByte flag : Nat) : Bool := flagByte &&& flag > 0

/-- `utils::set_flag_ref` / `set_flag` — `flag_byte | flag`. -/
def set_flag (flagByte flag : Nat) : Nat := flagByte ||| flag

/-- `utils::reset_flag` — `flag_byte & !flag`; for a u8, `!flag = 0xFF ^ flag`. -/
def reset_flag (flagByte flag : Nat) : Nat := flagByte &&& (0xFF ^^^ flag)

/-- `utils::bytes2word` — `(lsb as Word).set_high(msb)`, i.e. `(lsb & 0xff) | (msb << 8)`. -/
def bytes2word (lsb msb : Nat) : Nat := (lsb &&& 0xFF) ||| (msb <<< 8)

/-- `WordOP::get_low` for u16 — `(w & 0xff) as Byte`. -/
def word_get_low (w : Nat) : Nat := w &&& 0xFF

/-- `WordOP::get_high` for u16 — `(w >> 8) as Byte` (the cast truncates to 8 bits). -/
def word_get_high (w : Nat) : Nat := (w >>> 8) % 256

/-! ## memory.rs -/

def MEMORY_SIZE : Nat := 0x10000
def BOOTROM_SIZE : Nat := 0x100
def DMA_ADDRESS : Nat := 0xFF46
def UNLOAD_BOOT_ADDRESS : Nat := 0xFF50
def OAM_ADDRESS : Nat := 0xFE00

/-- `memory::CartridgeType`.  (`CartridgeState` carries banking fields for MBC1/MBC3;
no code path embedded here reads those fields, so the state is represented by its
`get_cartridge_type` image.) -/
inductive CartridgeType where
  | none | romOnly | mbc1 | mbc3
deriving DecidableEq, Repr

/-- `memory::Memory` — the 64 KiB working image, the list of 16 KiB ROM banks
(`rom`), and the cartridge variant.  `boot_rom` and `ram` are never read by the
embedded operations and are omitted. -/
structure Memory where
  memory : Nat → Nat
  rom : List (Nat → Nat)
  cartridge : CartridgeType

/-- `Memory::new()` — zeroed image, no ROM banks, cartridge `None`. -/
def Memory.new : Memory := ⟨fun _ => 0, [], CartridgeType.none⟩

/-- `Memory::read_byte` — `self.memory[address]` (the u16 address always indexes
in bounds); reads reduce mod 256 because the cells are u8. -/
def Memory.read_byte (m : Memory) (address : Nat) : Nat := m.memory address % 256

/-- `Memory::read_word` — `bytes2word(self.memory[address], self.memory[address + 1])`.
For `address = 0xFFFF` the second index is `0x10000`, out of bounds for the
64 KiB array: that panic is `none`. -/
def Memory.read_word (m : Memory) (address : Nat) : Option Nat :=
  if address + 1 < MEMORY_SIZE then
    some (bytes2word (m.memory address % 256) (m.memory (address + 1) % 256))
  else none

/-- Point update of the byte array. -/
def storeByte (f : Nat → Nat) (a v : Nat) : Nat → Nat :=
  fun i => if i = a then v else f i

/-- `Memory::unload_boot` — copies `self.rom[0][..0x100]` over `memory[..0x100]`;
`self.rom[0]` panics (`none`) when no cartridge was loaded. -/
def Memory.unload_boot (m : Memory) : Option Memory :=
  match m.rom with
  | [] => none
  | r0 :: _ =>
      some { m with memory := fun i => if i < BOOTROM_SIZE then r0 i % 256 else m.memory i }

/-- `Memory::dma` — `size = 0x100; src = bytes2word(0x00, byte);
memory.copy_within(src..src+size, OAM_ADDRESS)` (memmove semantics: sources are
the pre-copy contents).  Note the source copies 0x100 = 256 bytes. -/
def Memory.dma (m : Memory) (byte : Nat) : Memory :=
  let src := bytes2word 0x00 byte
  { m with
    memory := fun i =>
      if OAM_ADDRESS ≤ i ∧ i < OAM_ADDRESS + 0x100 then m.memory (src + (i - OAM_ADDRESS))
      else m.memory i }

/-- `Memory::write_byte` — the special-address match (boot unmap, DMA) followed
by the cartridge-type dispatch.  MBC1/MBC3 writes below 0x8000 are
`unimplemented!` panics (`none`). -/
def Memory.write_byte (m : Memory) (address byte : Nat) : Option Memory :=
  let step1 : Option Memory :=
    if address = UNLOAD_BOOT_ADDRESS then m.unload_boot
    else if address = DMA_ADDRESS then some (m.dma byte)
    else some m
  match step1 with
  | none => none
  | some m1 =>
    match m1.cartridge with
    | CartridgeType.romOnly =>
        if 0x8000 ≤ address then some { m1 with memory := storeByte m1.memory address byte }
        else some m1
    | CartridgeType.mbc1 =>
        if 0x8000 ≤ address then some { m1 with memory := storeByte m1.memory address byte }
        else none
    | CartridgeType.mbc3 =>
        if 0x8000 ≤ address then some { m1 with memory := storeByte m1.memory address byte }
        else none
    | CartridgeType.none =>
        some { m1 with memory := storeByte m1.memory address byte }

/-- `Memory::wrapping_add` — read, `u8::wrapping_add`, write back.  (The assert
`address < MEMORY_SIZE` always holds for a u16 address.) -/
def Memory.wrapping_add (m : Memory) (address value : Nat) : Option Memory :=
  let memVal := (m.read_byte address + value) % 256
  m.write_byte address memVal

/-! ## cpu.rs constants -/

def ZERO_FLAG : Nat := 0b10000000
def SUBTRACT_FLAG : Nat := 0b01000000
def HALF_CARRY_FLAG : Nat := 0b00100000
def CARRY_FLAG : Nat := 0b00010000

def INTERRUPT_FLAG_ADDRESS : Nat := 0xFF0F
def INTERRUPT_ENABLE_ADDRESS : Nat := 0xFFFF
def VBLANK_FLAG : Nat := 0b1
def LCD_FLAG : Nat := 0b10
def TIMER_FLAG : Nat := 0b100
def SERIAL_FLAG : Nat := 0b1000
def JOYPAD_FLAG : Nat := 0b10000

/-! ## clock.rs -/

def DIV_ADDRESS : Nat := 0xFF04
def TIMA_ADDRESS : Nat := 0xFF05
def TMA_ADDRESS : Nat := 0xFF06
def TAC_ADDRESS : Nat := 0xFF07
def TAC_ENABLE_FLAG : Nat := 0b100
def TAC_CLOCK_SELECT : Nat := 0b11

/-- `clock::Clock` — u8 divider counter, u32 timer counter, u128 timestamp
(the timestamp never approaches 2^128, so it is a plain `Nat` here). -/
structure Clock where
  div_counter : Nat
  timer_counter : Nat
  timestamp : Nat

def Clock.new : Clock := ⟨0, 0, 0⟩

/-- The `match tac & TAC_CLOCK_SELECT` table of `Clock::tick`; the argument is
already masked to two bits, so the Rust `_ => panic!` arm is unreachable and
the `3` case is written as the final catch-all. -/
def tacFrequency (sel : Nat) : Nat :=
  match sel with
  | 0 => 4096
  | 1 => 262144
  | 2 => 65536
  | _ => 16384

/-- One pass of the `while self.timer_counter >= 4194304 / frequency` loop of
`Clock::tick`: `wrapping_add(TIMA, 1)`; if TIMA wrapped to 0, raise TIMER in IF
and reload TIMA from TMA; then retry with the counter lowered by the period.
The first argument bounds the number of remaining iterations: the counter drops
by `period ≥ 1` per iteration, so `tc` iterations always suffice and the bound
is never the reason the recursion stops (see `timaLoopGo_exact`). -/
def timaLoopGo (period : Nat) : Nat → Nat → Memory → Option (Nat × Memory)
  | 0, tc, m => some (tc, m)
  | fuel + 1, tc, m =>
    if 0 < period ∧ period ≤ tc then
      match m.wrapping_add TIMA_ADDRESS 1 with
      | Option.none => Option.none
      | some m1 =>
        let afterOverflow : Option Memory :=
          if m1.read_byte TIMA_ADDRESS = 0 then
            match m1.write_byte INTERRUPT_FLAG_ADDRESS
                (set_flag (m1.read_byte INTERRUPT_FLAG_ADDRESS) TIMER_FLAG) with
            | Option.none => Option.none
            | some m2 => m2.write_byte TIMA_ADDRESS (m2.read_byte TMA_ADDRESS)
          else some m1
        match afterOverflow with
        | Option.none => Option.none
        | some m2 => timaLoopGo period fuel (tc - period) m2
    else some (tc, m)

/-- The `while` loop of `Clock::tick`, entered with counter `tc`. -/
def timaLoop (period tc : Nat) (m : Memory) : Option (Nat × Memory) :=
  timaLoopGo period tc tc m

/-- The iteration bound of `timaLoopGo` never cuts the loop short: with at
least `tc` iterations of budget the loop only stops because the counter
dropped below the period, so any larger budget computes the same result. -/
theorem timaLoopGo_zero (period fuel : Nat) (m : Memory) :
    timaLoopGo period fuel 0 m = some (0, m) := by
  cases fuel with
  | zero => rfl
  | succ n => simp only [timaLoopGo]; rw [if_neg (by omega)]

theorem timaLoopGo_exact (period : Nat) :
    ∀ fuel fuel2 tc m, tc ≤ fuel → tc ≤ fuel2 →
      timaLoopGo period fuel tc m = timaLoopGo period fuel2 tc m := by
  intro fuel
  induction fuel with
  | zero =>
    intro fuel2 tc m h1 _
    interval_cases tc
    rw [timaLoopGo_zero, timaLoopGo_zero]
  | succ n ih =>
    intro fuel2 tc m h1 h2
    match fuel2, h2 with
    | 0, h2 =>
      interval_cases tc
      rw [timaLoopGo_zero, timaLoopGo_zero]
    | fuel2 + 1, h2 =>
      simp only [timaLoopGo]
      by_cases hc : 0 < period ∧ period ≤ tc
      · simp only [if_pos hc]
        cases m.wrapping_add TIMA_ADDRESS 1 with
        | none => rfl
        | some m1 =>
          simp only
          cases hov : (if m1.read_byte TIMA_ADDRESS = 0 then
              match m1.write_byte INTERRUPT_FLAG_ADDRESS
                  (set_flag (m1.read_byte INTERRUPT_FLAG_ADDRESS) TIMER_FLAG) with
              | Option.none => Option.none
              | some m2 => m2.write_byte TIMA_ADDRESS (m2.read_byte TMA_ADDRESS)
            else some m1) with
          | none => rfl
          | some m2 => exact ih fuel2 (tc - period) m2 (by omega) (by omega)
      · simp only [if_neg hc]

/-- `Clock::tick` — divider overflow handling, timestamp accumulation, then the
TIMA loop when TAC bit 2 is set. -/
def Clock.tick (c : Clock) (mcycles : Nat) (m : Memory) : Option (Clock × Memory) :=
  let sum := c.div_counter + mcycles
  let newDiv := sum % 256
  let divStep : Option Memory :=
    if 256 ≤ sum then m.wrapping_add DIV_ADDRESS 1 else some m
  match divStep with
  | none => none
  | some m1 =>
    let ts := c.timestamp + mcycles
    let tac := m1.read_byte TAC_ADDRESS
    if get_flag tac TAC_ENABLE_FLAG then
      let tc := (c.timer_counter + 4 * mcycles) % 2 ^ 32
      let frequency := tacFrequency (tac &&& TAC_CLOCK_SELECT)
      match timaLoop (4194304 / frequency) tc m1 with
      | none => none
      | some (tc2, m2) =>
          some ({ div_counter := newDiv, timer_counter := tc2, timestamp := ts }, m2)
    else
      some ({ div_counter := newDiv, timer_counter := c.timer_counter, timestamp := ts }, m1)

/-! ## cpu.rs — CPU state and interrupt machinery -/

/-- `cpu::CPU` — eight 8-bit registers, SP, PC, the IME pair
(countdown, enabled) and the halt flag. -/
structure CPU where
  a : Nat
  b : Nat
  c : Nat
  d : Nat
  e : Nat
  h : Nat
  l : Nat
  f : Nat
  sp : Nat
  pc : Nat
  ime : Option Nat × Bool
  halt : Bool

/-- `CPU::new()`. -/
def CPU.new : CPU :=
  { a := 0, b := 0, c := 0, d := 0, e := 0, h := 0, l := 0, f := 0,
    sp := 0, pc := 0, ime := (Option.none, false), halt := false }

/-- `CPU::get_ime` — `self.ime.1`. -/
def CPU.get_ime (cpu : CPU) : Bool := cpu.ime.2

/-- `CPU::ime_enable` — sets the countdown to 2 only when no countdown is pending. -/
def CPU.ime_enable (cpu : CPU) : CPU :=
  if cpu.ime.1 = Option.none then { cpu with ime := (some 2, cpu.ime.2) } else cpu

/-- `CPU::ime_disable` — `self.ime = (None, false)`. -/
def CPU.ime_disable (cpu : CPU) : CPU := { cpu with ime := (Option.none, false) }

/-- `CPU::ime_step` — decrement a pending countdown; at zero, enable IME. -/
def CPU.ime_step (cpu : CPU) : CPU :=
  match cpu.ime.1 with
  | Option.none => cpu
  | some delay =>
      if delay - 1 = 0 then { cpu with ime := (Option.none, true) }
      else { cpu with ime := (some (delay - 1), cpu.ime.2) }

/-- `CPU::push_pc_stack` — `sp -= 1; write(sp, pc.high); sp -= 1; write(sp, pc.low)`
(u16 wrapping decrements). -/
def CPU.push_pc_stack (cpu : CPU) (m : Memory) : Option (CPU × Memory) :=
  let sp1 := (cpu.sp + 65535) % 65536
  match m.write_byte sp1 (word_get_high cpu.pc) with
  | Option.none => Option.none
  | some m1 =>
    let sp2 := (sp1 + 65535) % 65536
    match m1.write_byte sp2 (word_get_low cpu.pc) with
    | Option.none => Option.none
    | some m2 => some ({ cpu with sp := sp2 }, m2)

/-- `CPU::handle_interrupts` — computes `flag_bytes = IE & IF`, clears halt when
an interrupt is pending or IME is on, returns early when IME is off, otherwise
dispatches the highest-priority bit of `flag_bytes` (clear IME, push PC, clear
the bit, load the vector) and finally writes `flag_bytes` back to IF. -/
def CPU.handle_interrupts (cpu : CPU) (m : Memory) : Option (CPU × Memory) :=
  let interrupt_enable := m.read_byte INTERRUPT_ENABLE_ADDRESS
  let interrupt_flag := m.read_byte INTERRUPT_FLAG_ADDRESS
  let flag_bytes := interrupt_enable &&& interrupt_flag
  let cpu1 := if flag_bytes ≠ 0 ∨ cpu.get_ime then { cpu with halt := false } else cpu
  if cpu1.get_ime = false then some (cpu1, m)
  else if flag_bytes ≠ 0 then
    match (cpu1.ime_disable).push_pc_stack m with
    | Option.none => Option.none
    | some (cpu2, m2) =>
      let (fb3, cpu3) :=
        if get_flag flag_bytes VBLANK_FLAG then
          (reset_flag flag_bytes VBLANK_FLAG, { cpu2 with pc := 0x40 })
        else if get_flag flag_bytes LCD_FLAG then
          (reset_flag flag_bytes LCD_FLAG, { cpu2 with pc := 0x48 })
        else if get_flag flag_bytes TIMER_FLAG then
          (reset_flag flag_bytes TIMER_FLAG, { cpu2 with pc := 0x50 })
        else if get_flag flag_bytes SERIAL_FLAG then
          (reset_flag flag_bytes SERIAL_FLAG, { cpu2 with pc := 0x58 })
        else if get_flag flag_bytes JOYPAD_FLAG then
          (reset_flag flag_bytes JOYPAD_FLAG, { cpu2 with pc := 0x60 })
        else (flag_bytes, cpu2)
      match m2.write_byte INTERRUPT_FLAG_ADDRESS fb3 with
      | Option.none => Option.none
      | some m3 => some (cpu3, m3)
  else
    match m.write_byte INTERRUPT_FLAG_ADDRESS flag_bytes with
    | Option.none => Option.none
    | some m3 => some (cpu1, m3)

/-! ## cpu.rs — the execute arms needed by the claims

`addStep` and `daaStep` are the accumulator/flag effects of the
`Instruction::ADD_R` / `ADD_N` and `Instruction::DAA` arms of `CPU::execute`
(the PC advance and the clock tick of those arms do not touch A or F and are
irrelevant to the DAA claim). -/

/-- `zero_flag(result)` applied to a flag byte: reset Z, then set it when the
result is zero. -/
def zeroFlagUpd (f result : Nat) : Nat :=
  if result = 0 then set_flag (reset_flag f ZERO_FLAG) ZERO_FLAG
  else reset_flag f ZERO_FLAG

/-- `half_carry_flag_add(b1, b2)` applied to a flag byte. -/
def halfCarryAddUpd (f b1 b2 : Nat) : Nat :=
  if (b1 &&& 0xF) + (b2 &&& 0xF) > 0x0F then
    set_flag (reset_flag f HALF_CARRY_FLAG) HALF_CARRY_FLAG
  else reset_flag f HALF_CARRY_FLAG

/-- 8-bit ADD (the `Instruction::ADD_R`/`ADD_N` arm): wrapping sum, then
`zero_flag(result); half_carry_flag_add(a, value); reset N; reset C;
set C on overflow`.  Returns the new `(A, F)`. -/
def addStep (a value f : Nat) : Nat × Nat :=
  let result := (a + value) % 256
  let f1 := zeroFlagUpd f result
  let f2 := halfCarryAddUpd f1 a value
  let f3 := reset_flag f2 SUBTRACT_FLAG
  let f4 := reset_flag f3 CARRY_FLAG
  let f5 := if 256 ≤ a + value then set_flag f4 CARRY_FLAG else f4
  (result, f5)

/-- The conditional 0x60/0x06 adjustment phase of the `Instruction::DAA` arm
(additive when N is clear, subtractive when N is set, C sticky in the add
path): everything up to the final `reset H; zero_flag(result)`. -/
def daaAdjust (a f : Nat) : Nat × Nat :=
  let half_carry := get_flag f HALF_CARRY_FLAG
  let carry := get_flag f CARRY_FLAG
  let sub_flag := get_flag f SUBTRACT_FLAG
  if !sub_flag then
    let step1a : Nat × Nat :=
      if carry || a > 0x99 then ((a + 0x60) % 256, set_flag f CARRY_FLAG) else (a, f)
    if half_carry || step1a.1 &&& 0xF > 0x9 then ((step1a.1 + 0x6) % 256, step1a.2)
    else step1a
  else
    let a1 := if carry then (a + 256 - 0x60) % 256 else a
    (if half_carry then (a1 + 256 - 0x6) % 256 else a1, f)

/-- The `Instruction::DAA` arm: the adjustment phase, then
`reset H; zero_flag(result)`.  Returns the new `(A, F)`. -/
def daaStep (a f : Nat) : Nat × Nat :=
  let step1 := daaAdjust a f
  let f2 := reset_flag step1.2 HALF_CARRY_FLAG
  (step1.1, zeroFlagUpd f2 step1.1)

/-! ## cpu.rs — decoding and executing the instructions the claims exercise

`SizedInstruction::decode` recognizes the whole LR35902 map; the claims only
ever execute NOP (0x00), EI (0xFB) and DI (0xF3), so only the `NOP` arm
(pattern 0x00, mask 0xFF) and the `IR` arm (pattern 0xF3, mask 0xF7, bit 3
choosing EI over DI) are embedded — no earlier arm of the source's if-chain
matches those three opcodes.  Any other opcode decodes to `none` here. -/

inductive Instruction where
  | NOP | EI | DI
deriving DecidableEq, Repr

structure SizedInstruction where
  instruction : Instruction
  size : Nat
deriving DecidableEq, Repr

/-- Partial embedding of `SizedInstruction::decode` (NOP and IR arms). -/
def SizedInstruction.decode (m : Memory) (address : Nat) : Option SizedInstruction :=
  let opcode := m.read_byte address
  if opcode &&& 0b11111111 = 0 then some ⟨Instruction.NOP, 1⟩
  else if opcode &&& 0b11110111 = 0b11110011 then
    some ⟨if opcode &&& (1 <<< 3) > 0 then Instruction.EI else Instruction.DI, 1⟩
  else Option.none

/-- `CPU::execute` restricted to the embedded instructions: decode at PC, then
the NOP / EI / DI arms (flag action, `pc += size`, `clock.tick(1)`).  A decode
failure is the source's `panic!`, modelled as `none`. -/
def CPU.execute (cpu : CPU) (m : Memory) (clock : Clock) : Option (CPU × Memory × Clock) :=
  match SizedInstruction.decode m cpu.pc with
  | Option.none => Option.none
  | some si =>
    let step : CPU :=
      match si.instruction with
      | Instruction.NOP => cpu
      | Instruction.EI => cpu.ime_enable
      | Instruction.DI => cpu.ime_disable
    let cpu1 := { step with pc := (step.pc + si.size) % 65536 }
    match clock.tick 1 m with
    | Option.none => Option.none
    | some (c1, m1) => some (cpu1, m1, c1)

/-! ## gb.rs — one iteration of the emulation core of `GameBoy::run` -/

/-- The owned aggregate of `gb::GameBoy` that the embedded step touches
(the SDL graphics, event pump and debugger are host-facing). -/
structure GameBoy where
  cpu : CPU
  memory : Memory
  clock : Clock

/-- One iteration of the `loop` in `GameBoy::run`, restricted to the emulation
sequence: if halted tick one machine cycle, else execute one instruction; then
`handle_interrupts`; then `ime_step`.  (Event polling, joypad refresh, serial
echo and rendering are host-facing collaborators.) -/
def GameBoy.step (gb : GameBoy) : Option GameBoy :=
  let afterExec : Option (CPU × Memory × Clock) :=
    if gb.cpu.halt then
      match gb.clock.tick 1 gb.memory with
      | Option.none => Option.none
      | some (c1, m1) => some (gb.cpu, m1, c1)
    else gb.cpu.execute gb.memory gb.clock
  match afterExec with
  | Option.none => Option.none
  | some (cpu1, m1, c1) =>
    match cpu1.handle_interrupts m1 with
    | Option.none => Option.none
    | some (cpu2, m2) => some ⟨cpu2.ime_step, m2, c1⟩

/-! ## joypad.rs -/

def JOYPAD_REGISTER_ADDRESS : Nat := 0xFF00
def DPAD_FLAG : Nat := 0x10
def BUTTONS_FLAG : Nat := 0x20

/-- The SDL keycodes `Joypad::handle_button` distinguishes: W/S/A/D are mapped
to the D-pad, J/K/U/I to the buttons, anything else is ignored. -/
inductive Keycode where
  | W | S | A | D | J | K | U | I | other
deriving DecidableEq, Repr

/-- `joypad::Joypad` — the set of currently held keys, as a duplicate-free list. -/
structure Joypad where
  last_keys : List Keycode

/-- `HashSet::insert`. -/
def keysInsert (ks : List Keycode) (k : Keycode) : List Keycode :=
  if ks.contains k then ks else k :: ks

/-- `Joypad::handle_button` — on a key-down of a key not already held, raise
JOYPAD in IF when the row's selector bit of 0xFF00 is **set**; then add or
remove the key from the held set. -/
def Joypad.handle_button (jp : Joypad) (keycode : Keycode) (down : Bool) (m : Memory) :
    Option (Joypad × Memory) :=
  let joypad_flags := m.read_byte JOYPAD_REGISTER_ADDRESS
  let rowStep : Nat → Option (Joypad × Memory) := fun rowFlag =>
    if down then
      let mRes : Option Memory :=
        if !jp.last_keys.contains keycode ∧ get_flag joypad_flags rowFlag then
          m.write_byte INTERRUPT_FLAG_ADDRESS
            (set_flag (m.read_byte INTERRUPT_FLAG_ADDRESS) JOYPAD_FLAG)
        else some m
      match mRes with
      | Option.none => Option.none
      | some m1 => some (⟨keysInsert jp.last_keys keycode⟩, m1)
    else some (⟨jp.last_keys.erase keycode⟩, m)
  match keycode with
  | Keycode.A | Keycode.W | Keycode.D | Keycode.S => rowStep DPAD_FLAG
  | Keycode.J | Keycode.K | Keycode.U | Keycode.I => rowStep BUTTONS_FLAG
  | Keycode.other => some (jp, m)

/-! ## graphics.rs — the object (sprite) FIFO -/

def SCREEN_WIDTH : Nat := 160
def OBJ_COUNT : Nat := 40
def OBJ_TILE_ADDRESS : Nat := 0x8000
def BYTES_PER_TILE : Nat := 16
def LCDC_ADDRESS : Nat := 0xFF40
def OBJ_ENABLE_FLAG : Nat := 0b10
def OBJ_YFLIP_FLAG : Nat := 0x40
def OBJ_XFLIP_FLAG : Nat := 0x20

inductive PixelSource where
  | background (enabled : Bool)
  | object (number : Nat)
deriving DecidableEq, Repr

structure Pixel where
  color_ref : Nat
  pixel_source : PixelSource
deriving DecidableEq, Repr

/-- `graphics::Tile` — `tile[x][y]` as a curried function. -/
def Tile := Nat → Nat → Pixel

/-- `Tile::fetch_tile` — 2bpp decode: row `x` from the byte pair at
`address + 2x`, bit `7 - y` of the high byte doubled plus the same bit of the
low byte. -/
def fetch_tile (m : Memory) (src : PixelSource) (address : Nat) : Tile := fun x y =>
  let lsb := m.read_byte (address + 2 * x)
  let msb := m.read_byte (address + 2 * x + 1)
  let b := 7 - y
  ⟨((msb >>> b) &&& 1) * 2 + ((lsb >>> b) &&& 1), src⟩

/-- `Tile::flip_x` — reverse every row. -/
def flip_x (t : Tile) : Tile := fun x y => t x (7 - y)

/-- `Tile::flip_y` — reverse the rows. -/
def flip_y (t : Tile) : Tile := fun x y => t (7 - x) y

/-- `ObjFIFO::merge` — first non-transparent pixel wins. -/
def merge (p1 p2 : Pixel) : Pixel := if p1.color_ref = 0 then p2 else p1

/-- `graphics::Object`. -/
structure Object where
  index : Nat
  x_pos : Nat
  y_pos : Nat
  tile_num : Nat
  flag : Nat
deriving DecidableEq, Repr

/-- The intersection test of `ObjFIFO::next_line`:
`y_pos <= screen_y + 16 && screen_y + 8 < y_pos && !(x_pos == 0 || x_pos >= 168)`. -/
def objMatches (m : Memory) (screenY idx : Nat) : Bool :=
  let y_pos := m.read_byte (OAM_ADDRESS + 4 * idx)
  let x_pos := m.read_byte (OAM_ADDRESS + 4 * idx + 1)
  decide (y_pos ≤ screenY + 16) && decide (screenY + 8 < y_pos) &&
    !(decide (x_pos = 0) || decide (168 ≤ x_pos))

/-- The `Object::new(obj_idx, x_pos, y_pos, tile_number, flag)` record inserted
into `obj_attr` for a matching OAM entry. -/
def mkObject (m : Memory) (idx : Nat) : Object :=
  ⟨idx, m.read_byte (OAM_ADDRESS + 4 * idx + 1), m.read_byte (OAM_ADDRESS + 4 * idx),
    m.read_byte (OAM_ADDRESS + 4 * idx + 2), m.read_byte (OAM_ADDRESS + 4 * idx + 3)⟩

/-- The `xrange` of `ObjFIFO::next_line` as an explicit index list:
`8-x..8` when `x < 8`, `0..168-x` when `x > 160`, else `0..8`. -/
def xrangeList (x_pos : Nat) : List Nat :=
  if x_pos < 8 then List.range' (8 - x_pos) x_pos
  else if x_pos > SCREEN_WIDTH then List.range (8 + SCREEN_WIDTH - x_pos)
  else List.range 8

/-- Point update of a pixel strip. -/
def storePix (px : Nat → Pixel) (i : Nat) (p : Pixel) : Nat → Pixel :=
  fun j => if j = i then p else px j

/-- The per-match body of `ObjFIFO::next_line`: fetch the tile, apply X/Y flips
per the attribute byte, take row `screen_y + 16 - y_pos`, and merge the pixels
of the clipped x-range into the 160-pixel strip at `x_pos + d - 8`. -/
def applyObj (m : Memory) (screenY : Nat) (pixels : Nat → Pixel) (idx : Nat) : Nat → Pixel :=
  let y_pos := m.read_byte (OAM_ADDRESS + 4 * idx)
  let x_pos := m.read_byte (OAM_ADDRESS + 4 * idx + 1)
  let tile_number := m.read_byte (OAM_ADDRESS + 4 * idx + 2)
  let flag := m.read_byte (OAM_ADDRESS + 4 * idx + 3)
  let tile0 := fetch_tile m (PixelSource.object idx) (OBJ_TILE_ADDRESS + BYTES_PER_TILE * tile_number)
  let tile1 := if get_flag flag OBJ_XFLIP_FLAG then flip_x tile0 else tile0
  let tile2 := if get_flag flag OBJ_YFLIP_FLAG then flip_y tile1 else tile1
  let y := screenY + 16 - y_pos
  (xrangeList x_pos).foldl
    (fun px d => storePix px (x_pos + d - 8) (merge (px (x_pos + d - 8)) (tile2 y d))) pixels

/-- The `for obj_idx in 0..OBJ_COUNT` loop of `ObjFIFO::next_line`, with the
`if obj_attr.len() >= 10 { break; }` check at the end of each iteration.  The
first argument is the number of remaining loop iterations (initially
`OBJ_COUNT`), the second the current index. -/
def objScan (m : Memory) (screenY : Nat) :
    Nat → Nat → List Object → (Nat → Pixel) → List Object × (Nat → Pixel)
  | 0, _, attrs, pixels => (attrs, pixels)
  | fuel + 1, idx, attrs, pixels =>
    let step : List Object × (Nat → Pixel) :=
      if objMatches m screenY idx then
        (attrs ++ [mkObject m idx], applyObj m screenY pixels idx)
      else (attrs, pixels)
    if 10 ≤ step.1.length then step
    else objScan m screenY fuel (idx + 1) step.1 step.2

/-- `graphics::ObjFIFO` — the per-line 160-pixel strip (the `fifo` deque is
exactly the strip after `next_line`), LCDC snapshot, line counter and the
collected sprite map (as a list in insertion = OAM order). -/
structure ObjFIFO where
  fifo : Nat → Pixel
  lcdc : Nat
  initialized : Bool
  screen_y : Nat
  obj_attr : List Object

/-- `ObjFIFO::new()`. -/
def ObjFIFO.new : ObjFIFO :=
  ⟨fun _ => ⟨0, PixelSource.object 0⟩, 0, false, 0, []⟩

/-- `ObjFIFO::next_line` — advance (or initialize) the line counter, clear the
strip and the sprite map, and, when LCDC bit 1 (OBJ enable) is set, run the
OAM scan. -/
def ObjFIFO.next_line (st : ObjFIFO) (m : Memory) : ObjFIFO :=
  let screenY := if st.initialized then st.screen_y + 1 else st.screen_y
  let lcdc := m.read_byte LCDC_ADDRESS
  let basePixels : Nat → Pixel := fun _ => ⟨0, PixelSource.object 0⟩
  let scan : List Object × (Nat → Pixel) :=
    if get_flag lcdc OBJ_ENABLE_FLAG then objScan m screenY OBJ_COUNT 0 [] basePixels
    else ([], basePixels)
  { fifo := scan.2, lcdc := lcdc, initialized := true, screen_y := screenY,
    obj_attr := scan.1 }

/-- Spec-side match condition, following the specification's words: "An entry
matches this line if its y_pos (Y on screen + 16) satisfies
`y_pos ≤ line+16 < y_pos+8` (for 8×8 sprites) and x_pos is in (0, 168)." -/
def specObjMatch (m : Memory) (line idx : Nat) : Bool :=
  let y_pos := m.read_byte (OAM_ADDRESS + 4 * idx)
  let x_pos := m.read_byte (OAM_ADDRESS + 4 * idx + 1)
  decide (y_pos ≤ line + 16) && decide (line + 16 < y_pos + 8) &&
    decide (0 < x_pos) && decide (x_pos < 168)

/-- Spec-side collection, following the specification's words: "Collect at most
the first 10 matches in OAM order." -/
def specCollected (m : Memory) (line : Nat) : List Nat :=
  ((List.range OBJ_COUNT).filter (specObjMatch m line)).take 10

/-! ## Supporting lemmas about the embedded operations -/

theorem read_byte_store_same (m : Memory) (a v : Nat) :
    ({ m with memory := storeByte m.memory a v } : Memory).read_byte a = v % 256 := by
  simp [Memory.read_byte, storeByte]

theorem read_byte_store_other (m : Memory) (a v i : Nat) (h : i ≠ a) :
    ({ m with memory := storeByte m.memory a v } : Memory).read_byte i = m.read_byte i := by
  simp [Memory.read_byte, storeByte, h]

theorem read_byte_lt (m : Memory) (a : Nat) : m.read_byte a < 256 :=
  Nat.mod_lt _ (by omega)

/-- `write_byte` at an address at or above 0x8000 that is neither the DMA
register nor the boot-unmap register is a plain store for every cartridge. -/
theorem write_byte_high (m : Memory) (a v : Nat) (ha : 0x8000 ≤ a)
    (h1 : a ≠ UNLOAD_BOOT_ADDRESS) (h2 : a ≠ DMA_ADDRESS) :
    m.write_byte a v = some { m with memory := storeByte m.memory a v } := by
  obtain ⟨mem, rom, cart⟩ := m
  unfold Memory.write_byte
  rw [if_neg h1, if_neg h2]
  cases cart <;> simp [ha]

/-- `write_byte` with no cartridge loaded, off the DMA and boot-unmap
registers, is a plain store. -/
theorem write_byte_cart_none (m : Memory) (a v : Nat) (hc : m.cartridge = CartridgeType.none)
    (h1 : a ≠ UNLOAD_BOOT_ADDRESS) (h2 : a ≠ DMA_ADDRESS) :
    m.write_byte a v = some { m with memory := storeByte m.memory a v } := by
  unfold Memory.write_byte
  rw [if_neg h1, if_neg h2]
  simp [hc]

theorem wrapping_add_high (m : Memory) (a v : Nat) (ha : 0x8000 ≤ a)
    (h1 : a ≠ UNLOAD_BOOT_ADDRESS) (h2 : a ≠ DMA_ADDRESS) :
    m.wrapping_add a v =
      some { m with memory := storeByte m.memory a ((m.read_byte a + v) % 256) } := by
  unfold Memory.wrapping_add
  exact write_byte_high _ _ _ ha h1 h2

/-- Proof-layer names for the three stores a TIMA-loop iteration can make. -/
def timaBump (m : Memory) : Memory :=
  { m with memory := storeByte m.memory TIMA_ADDRESS ((m.read_byte TIMA_ADDRESS + 1) % 256) }

def raiseTimerIF (m : Memory) : Memory :=
  { m with memory := (storeByte m.memory INTERRUPT_FLAG_ADDRESS
      (set_flag (m.read_byte INTERRUPT_FLAG_ADDRESS) TIMER_FLAG)) }

def reloadTima (m : Memory) : Memory :=
  { m with memory := storeByte m.memory TIMA_ADDRESS (m.read_byte TMA_ADDRESS) }

theorem wrapping_add_tima (m : Memory) :
    m.wrapping_add TIMA_ADDRESS 1 = some (timaBump m) :=
  wrapping_add_high m TIMA_ADDRESS 1 (by decide) (by decide) (by decide)

theorem write_if_raise (m : Memory) :
    m.write_byte INTERRUPT_FLAG_ADDRESS
      (set_flag (m.read_byte INTERRUPT_FLAG_ADDRESS) TIMER_FLAG) = some (raiseTimerIF m) :=
  write_byte_high m INTERRUPT_FLAG_ADDRESS _ (by decide) (by decide) (by decide)

theorem write_tima_reload (m : Memory) :
    m.write_byte TIMA_ADDRESS (m.read_byte TMA_ADDRESS) = some (reloadTima m) :=
  write_byte_high m TIMA_ADDRESS _ (by decide) (by decide) (by decide)

/-- One unfolding of `timaLoopGo` in terms of the three stores. -/
theorem timaLoopGo_succ (period n tc : Nat) (m : Memory) :
    timaLoopGo period (n + 1) tc m =
      if 0 < period ∧ period ≤ tc then
        if (timaBump m).read_byte TIMA_ADDRESS = 0 then
          timaLoopGo period n (tc - period) (reloadTima (raiseTimerIF (timaBump m)))
        else timaLoopGo period n (tc - period) (timaBump m)
      else some (tc, m) := by
  by_cases hc : 0 < period ∧ period ≤ tc
  · rw [if_pos hc]
    simp only [timaLoopGo, if_pos hc, wrapping_add_tima, write_if_raise, write_tima_reload]
    by_cases hz : (timaBump m).read_byte TIMA_ADDRESS = 0
    · rw [if_pos hz, if_pos hz]
    · rw [if_neg hz, if_neg hz]
  · rw [if_neg hc]
    simp only [timaLoopGo, if_neg hc]

/-- Every iteration of the TIMA loop only stores to TIMA (0xFF05) and IF
(0xFF0F): the loop always succeeds, it preserves the cartridge and ROM, and it
preserves every byte other than those two. -/
theorem timaLoopGo_run (period : Nat) : ∀ (fuel tc : Nat) (m : Memory),
    ∃ tc2 m2, timaLoopGo period fuel tc m = some (tc2, m2) ∧
      m2.cartridge = m.cartridge ∧ m2.rom = m.rom ∧
      ∀ i, i ≠ TIMA_ADDRESS → i ≠ INTERRUPT_FLAG_ADDRESS → m2.read_byte i = m.read_byte i := by
  intro fuel
  induction fuel with
  | zero => intro tc m; exact ⟨tc, m, rfl, rfl, rfl, fun _ _ _ => rfl⟩
  | succ n ih =>
    intro tc m
    rw [timaLoopGo_succ]
    by_cases hc : 0 < period ∧ period ≤ tc
    · rw [if_pos hc]
      by_cases hz : (timaBump m).read_byte TIMA_ADDRESS = 0
      · rw [if_pos hz]
        obtain ⟨tc2, m4, hrun, hcart, hrom, hpres⟩ := ih (tc - period) (reloadTima (raiseTimerIF (timaBump m)))
        refine ⟨tc2, m4, hrun, hcart, hrom, fun i hi1 hi2 => ?_⟩
        rw [hpres i hi1 hi2]
        unfold reloadTima raiseTimerIF timaBump
        rw [read_byte_store_other _ _ _ _ hi1, read_byte_store_other _ _ _ _ hi2,
          read_byte_store_other _ _ _ _ hi1]
      · rw [if_neg hz]
        obtain ⟨tc2, m4, hrun, hcart, hrom, hpres⟩ := ih (tc - period) (timaBump m)
        refine ⟨tc2, m4, hrun, hcart, hrom, fun i hi1 hi2 => ?_⟩
        rw [hpres i hi1 hi2]
        unfold timaBump
        rw [read_byte_store_other _ _ _ _ hi1]
    · rw [if_neg hc]
      exact ⟨tc, m, rfl, rfl, rfl, fun _ _ _ => rfl⟩

/-- With a positive period and enough fuel the loop leaves exactly
`tc % period` in the counter (every completed period is consumed). -/
theorem timaLoopGo_counter (period : Nat) (hp : 0 < period) :
    ∀ (fuel tc : Nat) (m : Memory) (tc2 : Nat) (m2 : Memory), tc ≤ fuel →
      timaLoopGo period fuel tc m = some (tc2, m2) → tc2 = tc % period := by
  intro fuel
  induction fuel with
  | zero =>
    intro tc m tc2 m2 hle hrun
    interval_cases tc
    rw [timaLoopGo_zero] at hrun
    cases hrun
    simp
  | succ n ih =>
    intro tc m tc2 m2 hle hrun
    rw [timaLoopGo_succ] at hrun
    by_cases hc : 0 < period ∧ period ≤ tc
    · rw [if_pos hc] at hrun
      have hmod : (tc - period) % period = tc % period := by
        conv_rhs => rw [show tc = (tc - period) + period by omega]
        rw [Nat.add_mod_right]
      by_cases hz : (timaBump m).read_byte TIMA_ADDRESS = 0
      · rw [if_pos hz] at hrun
        rw [ih (tc - period) _ tc2 m2 (by omega) hrun, hmod]
      · rw [if_neg hz] at hrun
        rw [ih (tc - period) _ tc2 m2 (by omega) hrun, hmod]
    · rw [if_neg hc] at hrun
      cases hrun
      rw [Nat.mod_eq_of_lt (by omega)]

/-- `Clock::tick` always succeeds; it writes only the DIV, TIMA and IF bytes
and preserves the cartridge and ROM. -/
theorem tick_run (c : Clock) (mc : Nat) (m : Memory) :
    ∃ c2 m2, c.tick mc m = some (c2, m2) ∧
      m2.cartridge = m.cartridge ∧ m2.rom = m.rom ∧
      c2.timestamp = c.timestamp + mc ∧
      ∀ i, i ≠ DIV_ADDRESS → i ≠ TIMA_ADDRESS → i ≠ INTERRUPT_FLAG_ADDRESS →
        m2.read_byte i = m.read_byte i := by
  unfold Clock.tick
  dsimp only
  by_cases hdiv : 256 ≤ c.div_counter + mc
  · rw [if_pos hdiv, wrapping_add_high m DIV_ADDRESS 1 (by decide) (by decide) (by decide)]
    dsimp only
    by_cases htac : get_flag
        (({ m with memory := storeByte m.memory DIV_ADDRESS ((m.read_byte DIV_ADDRESS + 1) % 256) }
          : Memory).read_byte TAC_ADDRESS) TAC_ENABLE_FLAG = true
    · rw [if_pos htac]
      unfold timaLoop
      obtain ⟨tc2, m2, hrun, hcart, hrom, hpres⟩ :=
        timaLoopGo_run _ ((c.timer_counter + 4 * mc) % 2 ^ 32)
          ((c.timer_counter + 4 * mc) % 2 ^ 32)
          { m with memory := storeByte m.memory DIV_ADDRESS ((m.read_byte DIV_ADDRESS + 1) % 256) }
      rw [hrun]
      refine ⟨_, m2, rfl, by rw [hcart], by rw [hrom], rfl, fun i h1 h2 h3 => ?_⟩
      rw [hpres i h2 h3, read_byte_store_other m DIV_ADDRESS _ i h1]
    · rw [if_neg htac]
      refine ⟨_, _, rfl, rfl, rfl, rfl, fun i h1 _ _ => ?_⟩
      rw [read_byte_store_other m DIV_ADDRESS _ i h1]
  · rw [if_neg hdiv]
    dsimp only
    by_cases htac : get_flag (m.read_byte TAC_ADDRESS) TAC_ENABLE_FLAG = true
    · rw [if_pos htac]
      unfold timaLoop
      obtain ⟨tc2, m2, hrun, hcart, hrom, hpres⟩ :=
        timaLoopGo_run _ ((c.timer_counter + 4 * mc) % 2 ^ 32)
          ((c.timer_counter + 4 * mc) % 2 ^ 32) m
      rw [hrun]
      exact ⟨_, m2, rfl, hcart, hrom, rfl, fun i _ h2 h3 => hpres i h2 h3⟩
    · rw [if_neg htac]
      exact ⟨_, m, rfl, rfl, rfl, rfl, fun _ _ _ _ => rfl⟩

/-! ## Claim theorems -/

/-- A memory whose only nonzero byte is 0x37 at address 0x00A0 (no cartridge
loaded, as after `Memory::new`). -/
def dmaDemoMem : Memory := ⟨fun a => if a = 0xA0 then 0x37 else 0, [], CartridgeType.none⟩

/-- C2: writing `n` to the DMA register is claimed to copy exactly 160 bytes
into 0xFE00–0xFE9F and leave every byte outside that range (other than 0xFF46)
unchanged.  The code copies `0x100 = 256` bytes: after `write8(0xFF46, 0)` on a
memory whose byte 0x00A0 is 0x37, address 0xFEA0 — outside 0xFE00–0xFE9F and
not the DMA register — changes from 0x00 to 0x37.  The first 160 bytes are
copied as claimed. -/
theorem c2_dma_copies_256_bytes :
    ((dmaDemoMem.write_byte DMA_ADDRESS 0).map fun m => m.read_byte 0xFEA0) = some 0x37 ∧
    dmaDemoMem.read_byte 0xFEA0 = 0 ∧
    ((List.range 160).all fun i =>
        ((dmaDemoMem.write_byte DMA_ADDRESS 0).map fun m => m.read_byte (OAM_ADDRESS + i)) =
          some (dmaDemoMem.read_byte i)) = true := by
  decide

/-- C4: any CPU write to 0xFF04 is claimed to reset DIV to zero.
`Memory::write_byte` has no special case for 0xFF04: writing 5 stores 5, and a
read returns 5, not 0. -/
theorem c4_div_write_stores_value :
    (Memory.new.write_byte DIV_ADDRESS 5).map (fun m => m.read_byte DIV_ADDRESS) = some 5 ∧
    (5 : Nat) ≠ 0 := by
  decide

/-- A memory whose joypad register has the D-pad selector bit (bit 4,
active-low) cleared: the D-pad row is selected. -/
def joySelMem : Memory :=
  ⟨fun a => if a = JOYPAD_REGISTER_ADDRESS then 0xEF else 0, [], CartridgeType.none⟩

/-- A memory whose joypad register has both selector bits set: neither row is
selected. -/
def joyDeselMem : Memory :=
  ⟨fun a => if a = JOYPAD_REGISTER_ADDRESS then 0xFF else 0, [], CartridgeType.none⟩

/-- C8: a fresh press is claimed to raise JOYPAD in IF exactly when the
button's row is selected (selector bit 0, active-low).  The code tests
`get_flag(joypad_flags, DPAD_FLAG)`, i.e. raises the interrupt when the
selector bit is **set** (row deselected): a fresh W (Up) press with the D-pad
row selected (0xFF00 = 0xEF) raises nothing, while the same press with the row
deselected (0xFF00 = 0xFF) raises JOYPAD. -/
theorem c8_joypad_interrupt_row_inverted :
    (((Joypad.mk []).handle_button Keycode.W true joySelMem).map fun r =>
        get_flag (r.2.read_byte INTERRUPT_FLAG_ADDRESS) JOYPAD_FLAG) = some false ∧
    (((Joypad.mk []).handle_button Keycode.W true joyDeselMem).map fun r =>
        get_flag (r.2.read_byte INTERRUPT_FLAG_ADDRESS) JOYPAD_FLAG) = some true := by
  decide

/-- IE = IF = 0x01 (VBLANK enabled and pending), no cartridge. -/
def c6Mem : Memory :=
  ⟨fun a => if a = INTERRUPT_ENABLE_ADDRESS then 1 else
      if a = INTERRUPT_FLAG_ADDRESS then 1 else 0, [], CartridgeType.none⟩

/-- A GameBoy about to execute a NOP with IME on and a VBLANK interrupt
pending. -/
def c6GB : GameBoy :=
  ⟨{ CPU.new with ime := (Option.none, true), sp := 0xFFFE }, c6Mem, Clock.new⟩

/-- C6: a full interrupt dispatch is claimed to debit 5 machine cycles to the
Clock.  `CPU::handle_interrupts` never touches the Clock: one main-loop step
that executes a NOP (1 M-cycle) **and** dispatches the pending VBLANK
interrupt (PC ends at 0x40 with the return address pushed) advances the
timestamp by exactly 1 — the dispatch debits 0 cycles, not 5. -/
theorem c6_interrupt_dispatch_debits_no_cycles :
    (c6GB.step).map (fun gb => (gb.cpu.pc, gb.cpu.sp, gb.clock.timestamp)) =
      some (0x40, 0xFFFC, 1) := by
  decide

/-- IE = 0x01, IF = 0x05: VBLANK enabled and pending, TIMER pending but not
enabled. -/
def c1Mem : Memory :=
  ⟨fun a => if a = INTERRUPT_ENABLE_ADDRESS then 1 else
      if a = INTERRUPT_FLAG_ADDRESS then 5 else 0, [], CartridgeType.none⟩

/-- A CPU with IME on about to service the VBLANK interrupt of `c1Mem`. -/
def c1CPU : CPU := { CPU.new with ime := (Option.none, true), sp := 0xFFFE, pc := 0x1234 }

/-- C1 (counterexample): dispatching VBLANK with IE = 0x01, IF = 0x05 is
claimed to clear only IF bit 0, leaving bit 2 (TIMER) set.  The code writes
`IE & IF` minus the dispatched bit back to IF: bit 2 was set before and is
cleared after, refuting "every other bit of the IF register unchanged". -/
theorem c1_if_bits_clobbered :
    ((c1CPU.handle_interrupts c1Mem).map fun r =>
        (r.1.pc, get_flag (r.2.read_byte INTERRUPT_FLAG_ADDRESS) TIMER_FLAG)) =
      some (0x40, false) ∧
    get_flag (c1Mem.read_byte INTERRUPT_FLAG_ADDRESS) TIMER_FLAG = true := by
  decide

/-- C10 (counterexample): `read16` is claimed to be defined and never fail for
every address in 0x0000–0xFFFF; at 0xFFFF the code indexes `memory[0x10000]`,
out of bounds for the 64 KiB array. -/
theorem c10_read_word_top_address_fails : Memory.new.read_word 0xFFFF = Option.none := by
  decide

/-- C10 (amended): for every address in 0x0000–0xFFFE, `read16` succeeds and
returns the little-endian word whose low byte is the byte at `addr` and whose
high byte is the byte at `addr + 1`. -/
theorem c10_read_word_in_range (m : Memory) (address : Nat) (h : address ≤ 0xFFFE) :
    m.read_word address = some (bytes2word (m.read_byte address) (m.read_byte (address + 1))) := by
  unfold Memory.read_word
  rw [if_pos (show address + 1 < MEMORY_SIZE by unfold MEMORY_SIZE; omega)]
  rfl

/-- Witness for `c10_read_word_in_range` at address 0x1234. -/
theorem c10_read_word_in_range_witness :
    Memory.new.read_word 0x1234 =
      some (bytes2word (Memory.new.read_byte 0x1234) (Memory.new.read_byte 0x1235)) :=
  c10_read_word_in_range Memory.new 0x1234 (by decide)

/-- `IE & IF`, the pending mask of `CPU::handle_interrupts`. -/
def pendingOf (m : Memory) : Nat :=
  m.read_byte INTERRUPT_ENABLE_ADDRESS &&& m.read_byte INTERRUPT_FLAG_ADDRESS

/-- The vector of the highest-priority pending interrupt, per the claim's
priority table. -/
def highestVector (pend : Nat) : Nat :=
  if get_flag pend VBLANK_FLAG then 0x40
  else if get_flag pend LCD_FLAG then 0x48
  else if get_flag pend TIMER_FLAG then 0x50
  else if get_flag pend SERIAL_FLAG then 0x58
  else 0x60

/-- The bit mask of the highest-priority pending interrupt. -/
def highestFlag (pend : Nat) : Nat :=
  if get_flag pend VBLANK_FLAG then VBLANK_FLAG
  else if get_flag pend LCD_FLAG then LCD_FLAG
  else if get_flag pend TIMER_FLAG then TIMER_FLAG
  else if get_flag pend SERIAL_FLAG then SERIAL_FLAG
  else JOYPAD_FLAG

/-- With no cartridge and both stack slots off the boot-unmap and DMA
registers, `push_pc_stack` performs exactly two stores. -/
theorem push_pc_stack_clean (cpu : CPU) (m : Memory) (hc : m.cartridge = CartridgeType.none)
    (h1 : (cpu.sp + 65535) % 65536 ≠ UNLOAD_BOOT_ADDRESS)
    (h2 : (cpu.sp + 65535) % 65536 ≠ DMA_ADDRESS)
    (h3 : ((cpu.sp + 65535) % 65536 + 65535) % 65536 ≠ UNLOAD_BOOT_ADDRESS)
    (h4 : ((cpu.sp + 65535) % 65536 + 65535) % 65536 ≠ DMA_ADDRESS) :
    cpu.push_pc_stack m =
      some ({ cpu with sp := ((cpu.sp + 65535) % 65536 + 65535) % 65536 },
        { m with memory := (storeByte
            (storeByte m.memory ((cpu.sp + 65535) % 65536) (word_get_high cpu.pc))
            (((cpu.sp + 65535) % 65536 + 65535) % 65536) (word_get_low cpu.pc)) }) := by
  unfold CPU.push_pc_stack
  dsimp only
  rw [write_byte_cart_none m _ _ hc h1 h2]
  dsimp only
  rw [write_byte_cart_none
    { m with memory := storeByte m.memory ((cpu.sp + 65535) % 65536) (word_get_high cpu.pc) }
    _ _ (by exact hc) h3 h4]

theorem ne_zero_of_get_flag (p f : Nat) (h : get_flag p f = true) : p ≠ 0 := by
  intro hp
  subst hp
  simp [get_flag] at h

theorem pendingOf_lt (m : Memory) : pendingOf m < 256 :=
  lt_of_le_of_lt Nat.and_le_right (read_byte_lt m INTERRUPT_FLAG_ADDRESS)

/-- C1 (amended): with IME on, no cartridge loaded, one of the five interrupt
bits pending in `IE & IF`, and the two stack slots off the boot-unmap, DMA and
IF registers, `handle_interrupts` clears IME, pushes PC high then PC low at
SP-1 and SP-2, loads PC with the priority vector, and stores back to IF the
value `IE & IF` with the highest-priority pending bit cleared (so pending bits
of IF that are not enabled in IE are cleared as well). -/
theorem c1_interrupt_dispatch (cpu : CPU) (m : Memory)
    (hime : cpu.get_ime = true)
    (hcart : m.cartridge = CartridgeType.none)
    (hpend : get_flag (pendingOf m) VBLANK_FLAG = true ∨ get_flag (pendingOf m) LCD_FLAG = true ∨
      get_flag (pendingOf m) TIMER_FLAG = true ∨ get_flag (pendingOf m) SERIAL_FLAG = true ∨
      get_flag (pendingOf m) JOYPAD_FLAG = true)
    (hsp1 : (cpu.sp + 65535) % 65536 ≠ UNLOAD_BOOT_ADDRESS ∧
      (cpu.sp + 65535) % 65536 ≠ DMA_ADDRESS ∧
      (cpu.sp + 65535) % 65536 ≠ INTERRUPT_FLAG_ADDRESS)
    (hsp2 : ((cpu.sp + 65535) % 65536 + 65535) % 65536 ≠ UNLOAD_BOOT_ADDRESS ∧
      ((cpu.sp + 65535) % 65536 + 65535) % 65536 ≠ DMA_ADDRESS ∧
      ((cpu.sp + 65535) % 65536 + 65535) % 65536 ≠ INTERRUPT_FLAG_ADDRESS) :
    ∃ cpu2 m2, cpu.handle_interrupts m = some (cpu2, m2) ∧
      cpu2.ime = (Option.none, false) ∧
      cpu2.pc = highestVector (pendingOf m) ∧
      cpu2.sp = ((cpu.sp + 65535) % 65536 + 65535) % 65536 ∧
      m2.read_byte ((cpu.sp + 65535) % 65536) = word_get_high cpu.pc ∧
      m2.read_byte (((cpu.sp + 65535) % 65536 + 65535) % 65536) = word_get_low cpu.pc ∧
      m2.read_byte INTERRUPT_FLAG_ADDRESS =
        reset_flag (pendingOf m) (highestFlag (pendingOf m)) := by
  obtain ⟨h1, h2, h1f⟩ := hsp1
  obtain ⟨h3, h4, h2f⟩ := hsp2
  have hpne : pendingOf m ≠ 0 := by
    rcases hpend with h | h | h | h | h <;> exact ne_zero_of_get_flag _ _ h
  unfold CPU.handle_interrupts
  dsimp only
  rw [show m.read_byte INTERRUPT_ENABLE_ADDRESS &&& m.read_byte INTERRUPT_FLAG_ADDRESS =
    pendingOf m from rfl]
  rw [if_pos (Or.inl hpne)]
  have him : ({ cpu with halt := false } : CPU).get_ime = true := hime
  rw [if_neg (by simp [him])]
  rw [if_pos hpne]
  rw [push_pc_stack_clean ({ cpu with halt := false } : CPU).ime_disable m (by exact hcart)
    (by exact h1) (by exact h2) (by exact h3) (by exact h4)]
  dsimp only [CPU.ime_disable]
  have hne12 : (cpu.sp + 65535) % 65536 ≠ ((cpu.sp + 65535) % 65536 + 65535) % 65536 := by
    omega
  have hhigh : word_get_high cpu.pc % 256 = word_get_high cpu.pc := by
    unfold word_get_high; omega
  have hlow : word_get_low cpu.pc % 256 = word_get_low cpu.pc := by
    have : word_get_low cpu.pc ≤ 0xFF := Nat.and_le_right
    omega
  have hfb : ∀ g : Nat, reset_flag (pendingOf m) g % 256 = reset_flag (pendingOf m) g := by
    intro g
    have h1 : reset_flag (pendingOf m) g ≤ pendingOf m := Nat.and_le_left
    have h2 := pendingOf_lt m
    omega
  by_cases hv : get_flag (pendingOf m) VBLANK_FLAG = true
  · rw [if_pos hv,
      write_byte_cart_none _ _ _ (by exact hcart) (by decide) (by decide)]
    refine ⟨_, _, rfl, rfl, ?_, rfl, ?_, ?_, ?_⟩
    · rw [highestVector, if_pos hv]
    · unfold Memory.read_byte storeByte
      dsimp only
      rw [if_neg h1f, if_neg hne12, if_pos rfl]
      exact hhigh
    · unfold Memory.read_byte storeByte
      dsimp only
      rw [if_neg h2f, if_pos rfl]
      exact hlow
    · unfold Memory.read_byte storeByte
      dsimp only
      rw [if_pos rfl, highestFlag, if_pos hv]
      exact hfb _
  · rw [if_neg hv]
    by_cases hl : get_flag (pendingOf m) LCD_FLAG = true
    · rw [if_pos hl,
        write_byte_cart_none _ _ _ (by exact hcart) (by decide) (by decide)]
      refine ⟨_, _, rfl, rfl, ?_, rfl, ?_, ?_, ?_⟩
      · rw [highestVector, if_neg hv, if_pos hl]
      · unfold Memory.read_byte storeByte
        dsimp only
        rw [if_neg h1f, if_neg hne12, if_pos rfl]
        exact hhigh
      · unfold Memory.read_byte storeByte
        dsimp only
        rw [if_neg h2f, if_pos rfl]
        exact hlow
      · unfold Memory.read_byte storeByte
        dsimp only
        rw [if_pos rfl, highestFlag, if_neg hv, if_pos hl]
        exact hfb _
    · rw [if_neg hl]
      by_cases ht : get_flag (pendingOf m) TIMER_FLAG = true
      · rw [if_pos ht,
          write_byte_cart_none _ _ _ (by exact hcart) (by decide) (by decide)]
        refine ⟨_, _, rfl, rfl, ?_, rfl, ?_, ?_, ?_⟩
        · rw [highestVector, if_neg hv, if_neg hl, if_pos ht]
        · unfold Memory.read_byte storeByte
          dsimp only
          rw [if_neg h1f, if_neg hne12, if_pos rfl]
          exact hhigh
        · unfold Memory.read_byte storeByte
          dsimp only
          rw [if_neg h2f, if_pos rfl]
          exact hlow
        · unfold Memory.read_byte storeByte
          dsimp only
          rw [if_pos rfl, highestFlag, if_neg hv, if_neg hl, if_pos ht]
          exact hfb _
      · rw [if_neg ht]
        by_cases hs : get_flag (pendingOf m) SERIAL_FLAG = true
        · rw [if_pos hs,
            write_byte_cart_none _ _ _ (by exact hcart) (by decide) (by decide)]
          refine ⟨_, _, rfl, rfl, ?_, rfl, ?_, ?_, ?_⟩
          · rw [highestVector, if_neg hv, if_neg hl, if_neg ht, if_pos hs]
          · unfold Memory.read_byte storeByte
            dsimp only
            rw [if_neg h1f, if_neg hne12, if_pos rfl]
            exact hhigh
          · unfold Memory.read_byte storeByte
            dsimp only
            rw [if_neg h2f, if_pos rfl]
            exact hlow
          · unfold Memory.read_byte storeByte
            dsimp only
            rw [if_pos rfl, highestFlag, if_neg hv, if_neg hl, if_neg ht, if_pos hs]
            exact hfb _
        · rw [if_neg hs]
          by_cases hj : get_flag (pendingOf m) JOYPAD_FLAG = true
          · rw [if_pos hj,
              write_byte_cart_none _ _ _ (by exact hcart) (by decide) (by decide)]
            refine ⟨_, _, rfl, rfl, ?_, rfl, ?_, ?_, ?_⟩
            · rw [highestVector, if_neg hv, if_neg hl, if_neg ht, if_neg hs]
            · unfold Memory.read_byte storeByte
              dsimp only
              rw [if_neg h1f, if_neg hne12, if_pos rfl]
              exact hhigh
            · unfold Memory.read_byte storeByte
              dsimp only
              rw [if_neg h2f, if_pos rfl]
              exact hlow
            · unfold Memory.read_byte storeByte
              dsimp only
              rw [if_pos rfl, highestFlag, if_neg hv, if_neg hl, if_neg ht, if_neg hs]
              exact hfb _
          · rcases hpend with h | h | h | h | h
            · exact absurd h hv
            · exact absurd h hl
            · exact absurd h ht
            · exact absurd h hs
            · exact absurd h hj

/-- Witness for `c1_interrupt_dispatch`: dispatching VBLANK at IE = 0x01,
IF = 0x05, SP = 0xFFFE, PC = 0x1234. -/
theorem c1_interrupt_dispatch_witness :
    ∃ cpu2 m2, c1CPU.handle_interrupts c1Mem = some (cpu2, m2) ∧
      cpu2.ime = (Option.none, false) ∧
      cpu2.pc = highestVector (pendingOf c1Mem) ∧
      cpu2.sp = ((c1CPU.sp + 65535) % 65536 + 65535) % 65536 ∧
      m2.read_byte ((c1CPU.sp + 65535) % 65536) = word_get_high c1CPU.pc ∧
      m2.read_byte (((c1CPU.sp + 65535) % 65536 + 65535) % 65536) = word_get_low c1CPU.pc ∧
      m2.read_byte INTERRUPT_FLAG_ADDRESS =
        reset_flag (pendingOf c1Mem) (highestFlag (pendingOf c1Mem)) :=
  c1_interrupt_dispatch c1CPU c1Mem (by decide) (by decide) (Or.inl (by decide))
    (by refine ⟨?_, ?_, ?_⟩ <;> decide) (by refine ⟨?_, ?_, ?_⟩ <;> decide)

theorem tacPeriod_pos (sel : Nat) : 0 < 4194304 / tacFrequency sel := by
  rcases sel with _ | _ | _ | n <;> simp [tacFrequency]

/-- TAC = 0x05 (timer enabled, select 1 = 262144 Hz), TMA = 0xAB,
TIMA = 0xFF, no cartridge. -/
def c3Mem : Memory :=
  ⟨fun a => if a = TAC_ADDRESS then 0x05 else if a = TMA_ADDRESS then 0xAB else
      if a = TIMA_ADDRESS then 0xFF else 0, [], CartridgeType.none⟩

/-- Four 1-M-cycle ticks (four NOPs) from a fresh clock on `c3Mem`. -/
def c3Run : Option (Clock × Memory) :=
  (((Clock.new.tick 1 c3Mem).bind fun cm => cm.1.tick 1 cm.2).bind
    fun cm => cm.1.tick 1 cm.2).bind fun cm => cm.1.tick 1 cm.2

/-- TAC = 0x05, TIMA = TMA = 0, no cartridge: one 8-M-cycle tick spans two
16-T-state periods. -/
def c3MemB : Memory :=
  ⟨fun a => if a = TAC_ADDRESS then 0x05 else 0, [], CartridgeType.none⟩

/-- C3: with TAC bit 2 set, `Clock::tick` accumulates `4 × mcycles` T-states
against the period selected by TAC[1:0] — 1024, 16, 64, 256 T-states for
selects 0–3 — consuming every completed period (the counter ends at
`(old + 4·mcycles) mod 2^32 mod period`, so several increments can happen in
one tick: conjunct 3 shows TIMA going 0 → 2 in a single 8-cycle tick); on TIMA
overflow from 0xFF, TIMA is reloaded from TMA and IF bit 2 is raised: from
TAC=0x05, TMA=0xAB, TIMA=0xFF, four 1-cycle ticks end with TIMA=0xAB and IF
bit 2 set. -/
theorem c3_timer_behavior :
    (4194304 / tacFrequency 0 = 1024 ∧ 4194304 / tacFrequency 1 = 16 ∧
      4194304 / tacFrequency 2 = 64 ∧ 4194304 / tacFrequency 3 = 256) ∧
    (∀ (c : Clock) (mc : Nat) (m : Memory) (c2 : Clock) (m2 : Memory),
      get_flag (m.read_byte TAC_ADDRESS) TAC_ENABLE_FLAG = true →
      c.tick mc m = some (c2, m2) →
      c2.timer_counter = ((c.timer_counter + 4 * mc) % 2 ^ 32) %
        (4194304 / tacFrequency (m.read_byte TAC_ADDRESS &&& TAC_CLOCK_SELECT))) ∧
    ((Clock.new.tick 8 c3MemB).map fun cm => cm.2.read_byte TIMA_ADDRESS) = some 2 ∧
    (c3Run.map fun cm =>
      (cm.2.read_byte TIMA_ADDRESS,
        get_flag (cm.2.read_byte INTERRUPT_FLAG_ADDRESS) TIMER_FLAG)) = some (0xAB, true) := by
  refine ⟨by decide, ?_, by decide, by decide⟩
  intro c mc m c2 m2 htac hrun
  unfold Clock.tick at hrun
  dsimp only at hrun
  by_cases hdiv : 256 ≤ c.div_counter + mc
  · rw [if_pos hdiv, wrapping_add_high m DIV_ADDRESS 1 (by decide) (by decide) (by decide)]
      at hrun
    dsimp only at hrun
    rw [read_byte_store_other m DIV_ADDRESS _ TAC_ADDRESS (by decide)] at hrun
    rw [if_pos htac] at hrun
    unfold timaLoop at hrun
    cases hloop : timaLoopGo (4194304 / tacFrequency (m.read_byte TAC_ADDRESS &&& TAC_CLOCK_SELECT))
        ((c.timer_counter + 4 * mc) % 2 ^ 32) ((c.timer_counter + 4 * mc) % 2 ^ 32)
        { m with memory := storeByte m.memory DIV_ADDRESS ((m.read_byte DIV_ADDRESS + 1) % 256) } with
    | none => rw [hloop] at hrun; cases hrun
    | some tcm =>
      rw [hloop] at hrun
      obtain ⟨tcx, mx⟩ := tcm
      dsimp only at hrun
      cases hrun
      exact timaLoopGo_counter _ (tacPeriod_pos _) _ _ _ _ _ (le_refl _) hloop
  · rw [if_neg hdiv] at hrun
    dsimp only at hrun
    rw [if_pos htac] at hrun
    unfold timaLoop at hrun
    cases hloop : timaLoopGo (4194304 / tacFrequency (m.read_byte TAC_ADDRESS &&& TAC_CLOCK_SELECT))
        ((c.timer_counter + 4 * mc) % 2 ^ 32) ((c.timer_counter + 4 * mc) % 2 ^ 32) m with
    | none => rw [hloop] at hrun; cases hrun
    | some tcm =>
      rw [hloop] at hrun
      obtain ⟨tcx, mx⟩ := tcm
      dsimp only at hrun
      cases hrun
      exact timaLoopGo_counter _ (tacPeriod_pos _) _ _ _ _ _ (le_refl _) hloop

/-- Witness for `c3_timer_behavior`: the general counter equation applied to a
single 1-cycle tick on `c3Mem` (period 16). -/
theorem c3_timer_behavior_witness :
    ∃ c2 m2, Clock.new.tick 1 c3Mem = some (c2, m2) ∧ c2.timer_counter = 4 := by
  obtain ⟨c2, m2, hrun, -, -, -, -⟩ := tick_run Clock.new 1 c3Mem
  refine ⟨c2, m2, hrun, ?_⟩
  have h := c3_timer_behavior.2.1 Clock.new 1 c3Mem c2 m2 (by decide) hrun
  simpa using h

/-! ## C5 support: stepping EI and DI through the main loop -/

theorem ime_step_pc (cpu : CPU) : cpu.ime_step.pc = cpu.pc := by
  unfold CPU.ime_step
  cases h : cpu.ime.1 with
  | none => rfl
  | some d => dsimp only; split <;> rfl

theorem ime_step_sp (cpu : CPU) : cpu.ime_step.sp = cpu.sp := by
  unfold CPU.ime_step
  cases h : cpu.ime.1 with
  | none => rfl
  | some d => dsimp only; split <;> rfl

theorem ime_step_halt (cpu : CPU) : cpu.ime_step.halt = cpu.halt := by
  unfold CPU.ime_step
  cases h : cpu.ime.1 with
  | none => rfl
  | some d => dsimp only; split <;> rfl

/-- `handle_interrupts` with IME off returns before any memory write. -/
theorem handle_interrupts_ime_off (cpu : CPU) (m : Memory) (h : cpu.get_ime = false) :
    ∃ cpu2, cpu.handle_interrupts m = some (cpu2, m) ∧ cpu2.ime = cpu.ime ∧
      cpu2.pc = cpu.pc ∧ cpu2.sp = cpu.sp ∧ (cpu2.halt = cpu.halt ∨ cpu2.halt = false) := by
  unfold CPU.handle_interrupts
  dsimp only
  by_cases hfb : m.read_byte INTERRUPT_ENABLE_ADDRESS &&& m.read_byte INTERRUPT_FLAG_ADDRESS ≠ 0
  · rw [if_pos (Or.inl hfb), if_pos (show ({ cpu with halt := false } : CPU).get_ime = false
      from h)]
    exact ⟨_, rfl, rfl, rfl, rfl, Or.inr rfl⟩
  · rw [if_neg (show ¬ (m.read_byte INTERRUPT_ENABLE_ADDRESS &&&
        m.read_byte INTERRUPT_FLAG_ADDRESS ≠ 0 ∨ cpu.get_ime = true) by
      intro hcon
      rcases hcon with hcon | hcon
      · exact hfb hcon
      · rw [h] at hcon; cases hcon), if_pos h]
    exact ⟨_, rfl, rfl, rfl, rfl, Or.inl rfl⟩

theorem decode_EI (m : Memory) (a : Nat) (h : m.read_byte a = 0xFB) :
    SizedInstruction.decode m a = some ⟨Instruction.EI, 1⟩ := by
  unfold SizedInstruction.decode
  rw [h]
  decide

theorem decode_DI (m : Memory) (a : Nat) (h : m.read_byte a = 0xF3) :
    SizedInstruction.decode m a = some ⟨Instruction.DI, 1⟩ := by
  unfold SizedInstruction.decode
  rw [h]
  decide

theorem execute_EI (cpu : CPU) (m : Memory) (clock : Clock)
    (h : m.read_byte cpu.pc = 0xFB) :
    ∃ c2 m2, cpu.execute m clock =
      some ({ cpu.ime_enable with pc := (cpu.ime_enable.pc + 1) % 65536 }, m2, c2) ∧
      ∀ i, i ≠ DIV_ADDRESS → i ≠ TIMA_ADDRESS → i ≠ INTERRUPT_FLAG_ADDRESS →
        m2.read_byte i = m.read_byte i := by
  unfold CPU.execute
  rw [decode_EI m cpu.pc h]
  dsimp only
  obtain ⟨c2, m2, htick, -, -, -, hpres⟩ := tick_run clock 1 m
  rw [htick]
  exact ⟨c2, m2, rfl, hpres⟩

theorem execute_DI (cpu : CPU) (m : Memory) (clock : Clock)
    (h : m.read_byte cpu.pc = 0xF3) :
    ∃ c2 m2, cpu.execute m clock =
      some ({ cpu.ime_disable with pc := (cpu.ime_disable.pc + 1) % 65536 }, m2, c2) ∧
      ∀ i, i ≠ DIV_ADDRESS → i ≠ TIMA_ADDRESS → i ≠ INTERRUPT_FLAG_ADDRESS →
        m2.read_byte i = m.read_byte i := by
  unfold CPU.execute
  rw [decode_DI m cpu.pc h]
  dsimp only
  obtain ⟨c2, m2, htick, -, -, -, hpres⟩ := tick_run clock 1 m
  rw [htick]
  exact ⟨c2, m2, rfl, hpres⟩

/-- C5: running the two-instruction program `EI; DI` from a fresh CPU under the
main-loop order (execute, then handle interrupts, then advance the IME delay)
leaves IME disabled after both steps and services no interrupt in either step
(PC moves 0 → 1 → 2 and SP never changes, whatever IE and IF hold): after the
EI step the enable is still only a pending countdown (IME itself off), and DI
cancels it. -/
theorem c5_ei_di_ime_delay (cpu : CPU) (m : Memory) (clock : Clock)
    (hpc : cpu.pc = 0) (hi : cpu.ime = (Option.none, false)) (hh : cpu.halt = false)
    (h0 : m.read_byte 0 = 0xFB) (h1 : m.read_byte 1 = 0xF3) :
    ∃ gb1 gb2, GameBoy.step ⟨cpu, m, clock⟩ = some gb1 ∧ GameBoy.step gb1 = some gb2 ∧
      gb1.cpu.ime = (some 1, false) ∧ gb1.cpu.pc = 1 ∧ gb1.cpu.sp = cpu.sp ∧
      gb2.cpu.ime = (Option.none, false) ∧ gb2.cpu.pc = 2 ∧ gb2.cpu.sp = cpu.sp := by
  have hen : cpu.ime_enable = { cpu with ime := (some 2, false) } := by
    unfold CPU.ime_enable
    rw [hi]
    simp
  obtain ⟨cA, mA, hexe1, hpres1⟩ := execute_EI cpu m clock (by rw [hpc]; exact h0)
  have hcpu1ime : ({ cpu.ime_enable with pc := (cpu.ime_enable.pc + 1) % 65536 } : CPU).ime =
      (some 2, false) := by rw [hen]
  have hcpu1pc : ({ cpu.ime_enable with pc := (cpu.ime_enable.pc + 1) % 65536 } : CPU).pc = 1 := by
    rw [hen]
    dsimp only
    rw [hpc]
  have hcpu1sp : ({ cpu.ime_enable with pc := (cpu.ime_enable.pc + 1) % 65536 } : CPU).sp =
      cpu.sp := by rw [hen]
  have hgoff1 : ({ cpu.ime_enable with pc := (cpu.ime_enable.pc + 1) % 65536 } : CPU).get_ime =
      false := by unfold CPU.get_ime; rw [hcpu1ime]
  obtain ⟨cpu2, hhand1, hime2, hpc2, hsp2, hhalt2⟩ :=
    handle_interrupts_ime_off _ mA hgoff1
  have hstep1 : GameBoy.step ⟨cpu, m, clock⟩ = some ⟨cpu2.ime_step, mA, cA⟩ := by
    unfold GameBoy.step
    dsimp only
    rw [if_neg (show ¬ cpu.halt = true by rw [hh]; simp), hexe1]
    dsimp only
    rw [hhand1]
  rw [hcpu1ime] at hime2
  rw [hcpu1pc] at hpc2
  rw [hcpu1sp] at hsp2
  have hSime : cpu2.ime_step.ime = (some 1, false) := by
    unfold CPU.ime_step
    rw [hime2]
    dsimp only
    rw [if_neg (by omega)]
  have hSpc : cpu2.ime_step.pc = 1 := by rw [ime_step_pc, hpc2]
  have hSsp : cpu2.ime_step.sp = cpu.sp := by rw [ime_step_sp, hsp2]
  have hShalt : cpu2.ime_step.halt = false := by
    rw [ime_step_halt]
    rcases hhalt2 with hB | hB
    · rw [hB, hen]
      exact hh
    · exact hB
  have hread1 : mA.read_byte cpu2.ime_step.pc = 0xF3 := by
    rw [hSpc, hpres1 1 (by decide) (by decide) (by decide)]
    exact h1
  obtain ⟨cB, mB, hexe2, hpres2⟩ := execute_DI cpu2.ime_step mA cA hread1
  have hcpuBpc : ({ cpu2.ime_step.ime_disable with
      pc := (cpu2.ime_step.ime_disable.pc + 1) % 65536 } : CPU).pc = 2 := by
    dsimp only [CPU.ime_disable]
    rw [hSpc]
  have hcpuBsp : ({ cpu2.ime_step.ime_disable with
      pc := (cpu2.ime_step.ime_disable.pc + 1) % 65536 } : CPU).sp = cpu.sp := by
    dsimp only [CPU.ime_disable]
    exact hSsp
  obtain ⟨cpu4, hhand2, hime4, hpc4, hsp4, hhalt4⟩ :=
    handle_interrupts_ime_off ({ cpu2.ime_step.ime_disable with
      pc := (cpu2.ime_step.ime_disable.pc + 1) % 65536 } : CPU) mB (by unfold CPU.get_ime; rfl)
  have hstep2 : GameBoy.step ⟨cpu2.ime_step, mA, cA⟩ = some ⟨cpu4.ime_step, mB, cB⟩ := by
    unfold GameBoy.step
    dsimp only
    rw [if_neg (show ¬ cpu2.ime_step.halt = true by rw [hShalt]; simp), hexe2]
    dsimp only
    rw [hhand2]
  refine ⟨⟨cpu2.ime_step, mA, cA⟩, ⟨cpu4.ime_step, mB, cB⟩, hstep1, hstep2, hSime, hSpc, hSsp,
    ?_, ?_, ?_⟩
  · show cpu4.ime_step.ime = (Option.none, false)
    have hime4A : cpu4.ime = (Option.none, false) := by
      rw [hime4]
      dsimp only [CPU.ime_disable]
    unfold CPU.ime_step
    rw [hime4A]
    dsimp only
    exact hime4A
  · show cpu4.ime_step.pc = 2
    rw [ime_step_pc, hpc4]
    exact hcpuBpc
  · show cpu4.ime_step.sp = cpu.sp
    rw [ime_step_sp, hsp4]
    exact hcpuBsp

/-- The program bytes `EI; DI` at 0x0000, everything else zero, no cartridge. -/
def c5Mem : Memory :=
  ⟨fun a => if a = 0 then 0xFB else if a = 1 then 0xF3 else 0, [], CartridgeType.none⟩

/-- Witness for `c5_ei_di_ime_delay`: a fresh CPU and clock on `c5Mem`. -/
theorem c5_ei_di_ime_delay_witness :
    ∃ gb1 gb2, GameBoy.step ⟨CPU.new, c5Mem, Clock.new⟩ = some gb1 ∧
      GameBoy.step gb1 = some gb2 ∧
      gb1.cpu.ime = (some 1, false) ∧ gb1.cpu.pc = 1 ∧ gb1.cpu.sp = CPU.new.sp ∧
      gb2.cpu.ime = (Option.none, false) ∧ gb2.cpu.pc = 2 ∧ gb2.cpu.sp = CPU.new.sp :=
  c5_ei_di_ime_delay CPU.new c5Mem Clock.new (by decide) (by decide) (by decide)
    (by decide) (by decide)

theorem get_flag_pow (f k : Nat) : get_flag f (2 ^ k) = f.testBit k := by
  unfold get_flag
  rw [Nat.and_two_pow]
  cases h : f.testBit k <;> simp [h, Nat.pos_pow_of_pos]

theorem zf_reset_idem (g x : Nat) :
    zeroFlagUpd (reset_flag (zeroFlagUpd (reset_flag g HALF_CARRY_FLAG) x)
      HALF_CARRY_FLAG) x = zeroFlagUpd (reset_flag g HALF_CARRY_FLAG) x := by
  unfold zeroFlagUpd reset_flag set_flag HALF_CARRY_FLAG ZERO_FLAG
  by_cases hx : x = 0
  · simp only [hx, reduceIte]
    apply Nat.eq_of_testBit_eq
    intro i
    simp only [Nat.testBit_or, Nat.testBit_and]
    generalize g.testBit i = b1
    generalize (255 ^^^ 32 : Nat).testBit i = b2
    generalize (255 ^^^ 128 : Nat).testBit i = b3
    generalize (128 : Nat).testBit i = b4
    revert b1 b2 b3 b4
    decide
  · simp only [if_neg hx]
    apply Nat.eq_of_testBit_eq
    intro i
    simp only [Nat.testBit_or, Nat.testBit_and]
    generalize g.testBit i = b1
    generalize (255 ^^^ 32 : Nat).testBit i = b2
    generalize (255 ^^^ 128 : Nat).testBit i = b3
    revert b1 b2 b3
    decide

theorem reset_testBit_other (f m k : Nat) (h : (255 ^^^ m : Nat).testBit k = true) :
    (reset_flag f m).testBit k = f.testBit k := by
  unfold reset_flag
  simp [Nat.testBit_and, h]

theorem reset_testBit_self (f m k : Nat) (h : (255 ^^^ m : Nat).testBit k = false) :
    (reset_flag f m).testBit k = false := by
  unfold reset_flag
  simp [Nat.testBit_and, h]

theorem set_testBit_other (f m k : Nat) (h : (m : Nat).testBit k = false) :
    (set_flag f m).testBit k = f.testBit k := by
  unfold set_flag
  simp [Nat.testBit_or, h]

theorem zf_testBit (f x k : Nat) (h1 : (255 ^^^ 128 : Nat).testBit k = true)
    (h2 : (128 : Nat).testBit k = false) :
    (zeroFlagUpd f x).testBit k = f.testBit k := by
  unfold zeroFlagUpd set_flag reset_flag ZERO_FLAG
  by_cases hx : x = 0
  · simp only [hx, reduceIte, Nat.testBit_or, Nat.testBit_and, h1, h2]
    simp
  · simp only [if_neg hx, Nat.testBit_and, h1]
    simp

theorem daaAdjust_snd_cases (a f : Nat) :
    (daaAdjust a f).2 = f ∨ (daaAdjust a f).2 = set_flag f CARRY_FLAG := by
  unfold daaAdjust
  dsimp only
  split
  · split <;> split <;> simp
  · simp

theorem daaStep_bit6 (a f : Nat) : ((daaStep a f).2).testBit 6 = f.testBit 6 := by
  have hzf : ((daaStep a f).2).testBit 6 =
      ((reset_flag (daaAdjust a f).2 HALF_CARRY_FLAG)).testBit 6 :=
    zf_testBit _ _ 6 rfl rfl
  rw [hzf, reset_testBit_other _ HALF_CARRY_FLAG 6 rfl]
  rcases daaAdjust_snd_cases a f with h | h <;> rw [h]
  rw [set_testBit_other _ CARRY_FLAG 6 rfl]

theorem daaStep_bit5 (a f : Nat) : ((daaStep a f).2).testBit 5 = false := by
  have hzf : ((daaStep a f).2).testBit 5 =
      ((reset_flag (daaAdjust a f).2 HALF_CARRY_FLAG)).testBit 5 :=
    zf_testBit _ _ 5 rfl rfl
  rw [hzf, reset_testBit_self _ HALF_CARRY_FLAG 5 rfl]

theorem addStep_bit6 (a v f : Nat) : ((addStep a v f).2).testBit 6 = false := by
  unfold addStep
  dsimp only
  split
  · rw [set_testBit_other _ CARRY_FLAG 6 rfl, reset_testBit_other _ CARRY_FLAG 6 rfl,
      reset_testBit_self _ SUBTRACT_FLAG 6 rfl]
  · rw [reset_testBit_other _ CARRY_FLAG 6 rfl, reset_testBit_self _ SUBTRACT_FLAG 6 rfl]

theorem daaStep_noop_shape (x y : Nat) (hs : get_flag y SUBTRACT_FLAG = false)
    (hcy : get_flag y CARRY_FLAG = false) (hhy : get_flag y HALF_CARRY_FLAG = false)
    (hx : x ≤ 0x99) (hxn : x &&& 0xF ≤ 9) :
    daaStep x y = (x, zeroFlagUpd (reset_flag y HALF_CARRY_FLAG) x) := by
  have d1 : decide (0x99 < x) = false := by simp only [decide_eq_false_iff_not]; omega
  have d2 : decide (9 < x &&& 0xF) = false := by simp only [decide_eq_false_iff_not]; omega
  unfold daaStep daaAdjust
  dsimp only
  rw [hs, hcy, hhy]
  simp [d1, d2]

theorem daa_idem_core (a1 f1 : Nat) (hN : get_flag f1 SUBTRACT_FLAG = false)
    (hc : get_flag (daaStep a1 f1).2 CARRY_FLAG = false)
    (ha : (daaStep a1 f1).1 ≤ 0x99)
    (hn : (daaStep a1 f1).1 &&& 0xF ≤ 9) :
    daaStep (daaStep a1 f1).1 (daaStep a1 f1).2 = daaStep a1 f1 := by
  have hH : get_flag (daaStep a1 f1).2 HALF_CARRY_FLAG = false := by
    rw [show (HALF_CARRY_FLAG : Nat) = 2 ^ 5 from rfl, get_flag_pow]
    exact daaStep_bit5 a1 f1
  have hN2 : get_flag (daaStep a1 f1).2 SUBTRACT_FLAG = false := by
    rw [show (SUBTRACT_FLAG : Nat) = 2 ^ 6 from rfl, get_flag_pow, daaStep_bit6]
    rw [show (SUBTRACT_FLAG : Nat) = 2 ^ 6 from rfl, get_flag_pow] at hN
    exact hN
  have hshape : (daaStep a1 f1).2 =
      zeroFlagUpd (reset_flag (daaAdjust a1 f1).2 HALF_CARRY_FLAG) (daaStep a1 f1).1 := rfl
  rw [daaStep_noop_shape _ _ hN2 hc hH ha hn]
  refine Prod.ext rfl ?_
  dsimp only
  conv_lhs => rw [hshape]
  conv_rhs => rw [hshape]
  exact zf_reset_idem _ _

/-- C9 (counterexample): after `ADD A,0x99` with A = 0x99 (which sets carry),
the first DAA yields A = 0x98 with C set, and a second DAA adds another 0x60:
`DAA;DAA` differs from `DAA`. -/
theorem c9_daa_not_idempotent :
    daaStep (daaStep (addStep 0x99 0x99 0).1 (addStep 0x99 0x99 0).2).1
        (daaStep (addStep 0x99 0x99 0).1 (addStep 0x99 0x99 0).2).2 ≠
      daaStep (addStep 0x99 0x99 0).1 (addStep 0x99 0x99 0).2 := by
  decide

/-- C9 (amended): for every CPU state produced by an 8-bit ADD, if the first
DAA leaves the carry flag clear and an accumulator that is a valid packed BCD
value (A ≤ 0x99 and low nibble ≤ 9 — as always happens when the ADD operands
are valid BCD), a second DAA changes neither A nor F. -/
theorem c9_daa_idempotent_conditional (a v f : Nat)
    (hc : get_flag (daaStep (addStep a v f).1 (addStep a v f).2).2 CARRY_FLAG = false)
    (ha : (daaStep (addStep a v f).1 (addStep a v f).2).1 ≤ 0x99)
    (hn : (daaStep (addStep a v f).1 (addStep a v f).2).1 &&& 0xF ≤ 9) :
    daaStep (daaStep (addStep a v f).1 (addStep a v f).2).1
        (daaStep (addStep a v f).1 (addStep a v f).2).2 =
      daaStep (addStep a v f).1 (addStep a v f).2 :=
  daa_idem_core _ _
    (by rw [show (SUBTRACT_FLAG : Nat) = 2 ^ 6 from rfl, get_flag_pow, addStep_bit6])
    hc ha hn

/-- Witness for `c9_daa_idempotent_conditional`: ADD A,0x45 with A = 0x23. -/
theorem c9_daa_idempotent_conditional_witness :
    daaStep (daaStep (addStep 0x23 0x45 0).1 (addStep 0x23 0x45 0).2).1
        (daaStep (addStep 0x23 0x45 0).1 (addStep 0x23 0x45 0).2).2 =
      daaStep (addStep 0x23 0x45 0).1 (addStep 0x23 0x45 0).2 :=
  c9_daa_idempotent_conditional 0x23 0x45 0 (by decide) (by decide) (by decide)

theorem objMatches_eq_spec (m : Memory) (sy i : Nat) :
    objMatches m sy i = specObjMatch m sy i := by
  unfold objMatches specObjMatch
  dsimp only
  have e2 : decide (sy + 8 < m.read_byte (OAM_ADDRESS + 4 * i)) =
      decide (sy + 16 < m.read_byte (OAM_ADDRESS + 4 * i) + 8) :=
    decide_eq_decide.mpr (by omega)
  have e3 : (!decide (m.read_byte (OAM_ADDRESS + 4 * i + 1) = 0)) =
      decide (0 < m.read_byte (OAM_ADDRESS + 4 * i + 1)) := by
    rw [← decide_not]
    exact decide_eq_decide.mpr (by omega)
  have e4 : (!decide (168 ≤ m.read_byte (OAM_ADDRESS + 4 * i + 1))) =
      decide (m.read_byte (OAM_ADDRESS + 4 * i + 1) < 168) := by
    rw [← decide_not]
    exact decide_eq_decide.mpr (by omega)
  rw [e2, Bool.not_or, e3, e4]
  simp [Bool.and_assoc]

theorem objScan_spec (m : Memory) (sy : Nat) :
    ∀ (fuel idx : Nat) (attrs : List Object) (pixels : Nat → Pixel),
      attrs.length < 10 →
      objScan m sy fuel idx attrs pixels =
        (attrs ++ ((((List.range' idx fuel).filter (objMatches m sy)).take
            (10 - attrs.length)).map (mkObject m)),
          (((List.range' idx fuel).filter (objMatches m sy)).take
            (10 - attrs.length)).foldl (applyObj m sy) pixels) := by
  intro fuel
  induction fuel with
  | zero =>
    intro idx attrs pixels _
    simp [objScan]
  | succ n ih =>
    intro idx attrs pixels hlen
    rw [List.range'_succ]
    by_cases hm : objMatches m sy idx = true
    · rw [List.filter_cons_of_pos hm]
      simp only [objScan]
      rw [if_pos hm]
      by_cases h9 : attrs.length = 9
      · rw [if_pos (show 10 ≤ (attrs ++ [mkObject m idx]).length by simp [h9])]
        have ht : 10 - attrs.length = 1 := by omega
        rw [ht]
        simp [List.take]
      · rw [if_neg (show ¬ 10 ≤ (attrs ++ [mkObject m idx]).length by simp; omega)]
        rw [ih (idx + 1) (attrs ++ [mkObject m idx]) (applyObj m sy pixels idx)
          (by simp; omega)]
        have ht : 10 - attrs.length = (10 - (attrs ++ [mkObject m idx]).length) + 1 := by
          simp
          omega
        rw [ht, List.take_succ_cons, List.map_cons, List.foldl_cons]
        simp [List.append_assoc]
    · rw [List.filter_cons_of_neg (by simp [hm])]
      simp only [objScan]
      rw [if_neg hm, if_neg (show ¬ 10 ≤ attrs.length by omega)]
      exact ih (idx + 1) attrs pixels hlen

/-- C7: on every scanline at most 10 sprites participate: `next_line` collects
exactly the first (at most) 10 OAM entries, in OAM order, that satisfy the
match condition `y_pos ≤ line+16 < y_pos+8` with `x_pos` strictly between 0 and
168 (as the spec words it), and the rendered 160-pixel strip is the merge of
exactly those collected entries — an OAM entry after the tenth collected match
contributes no pixel.  With sprites disabled in LCDC nothing is collected. -/
theorem c7_obj_fifo_ten_sprites (st : ObjFIFO) (m : Memory) :
    (st.next_line m).obj_attr.length ≤ 10 ∧
    (st.next_line m).obj_attr =
      (if get_flag (m.read_byte LCDC_ADDRESS) OBJ_ENABLE_FLAG then
        (specCollected m (if st.initialized then st.screen_y + 1 else st.screen_y)).map
          (mkObject m)
      else []) ∧
    (st.next_line m).fifo =
      (if get_flag (m.read_byte LCDC_ADDRESS) OBJ_ENABLE_FLAG then
        (specCollected m (if st.initialized then st.screen_y + 1 else st.screen_y)).foldl
          (applyObj m (if st.initialized then st.screen_y + 1 else st.screen_y))
          (fun _ => ⟨0, PixelSource.object 0⟩)
      else (fun _ => ⟨0, PixelSource.object 0⟩)) := by
  unfold ObjFIFO.next_line
  dsimp only
  by_cases hf : get_flag (m.read_byte LCDC_ADDRESS) OBJ_ENABLE_FLAG = true
  · simp only [hf, if_true]
    rw [objScan_spec m (if st.initialized then st.screen_y + 1 else st.screen_y) OBJ_COUNT 0 []
      (fun _ => ⟨0, PixelSource.object 0⟩) (by norm_num)]
    have hfun : objMatches m (if st.initialized then st.screen_y + 1 else st.screen_y) =
        specObjMatch m (if st.initialized then st.screen_y + 1 else st.screen_y) :=
      funext fun i => objMatches_eq_spec m _ i
    have hcoll : specCollected m (if st.initialized then st.screen_y + 1 else st.screen_y) =
        ((List.range' 0 OBJ_COUNT).filter
          (objMatches m (if st.initialized then st.screen_y + 1 else st.screen_y))).take 10 := by
      unfold specCollected
      rw [hfun, List.range_eq_range']
    refine ⟨?_, ?_, ?_⟩
    · dsimp only
      rw [List.nil_append, List.length_map, List.length_nil, Nat.sub_zero]
      exact List.length_take_le 10 _
    · dsimp only
      rw [List.nil_append, List.length_nil, Nat.sub_zero, hcoll]
    · dsimp only
      rw [List.length_nil, Nat.sub_zero, hcoll]
  · simp only [Bool.not_eq_true] at hf
    simp only [hf, Bool.false_eq_true, if_false]
    refine ⟨by simp, by simp, by simp⟩

end GBEmu
